import Mathlib

/-!
Shallow embedding of the Kismet `tcp_client_v2` class (src/tcpclient2.cc).

The client owns a socket descriptor together with two flags,
`pending_connect` (the Connecting state) and `connected`; the shared
buffer handler is modelled as a pair of bounded byte rings (ingress and
egress).  Socket syscalls, the message bus and the buffer-error channel
are modelled by an environment of outcomes fed to each call and by a
trace of events each call emits.  Every definition mirrors the control
flow of the C++ source line by line; theorems about the claims follow
the definitions.
-/

namespace TcpClientV2

/-- State owned by `tcp_client_v2`: host, port, descriptor and the two
connection flags.  `pending_connect` is the Connecting state of the spec,
`connected` the Connected state; both false is Idle or Closed. -/
structure ClientState where
  host : String
  port : Nat
  cli_fd : Int
  pending_connect : Bool
  connected : Bool
deriving DecidableEq

/-- The shared buffer handler, reduced to the two rings the client
touches: a bounded ingress ring (capacity plus contents) and the egress
byte queue. -/
structure Handler where
  ingressCapacity : Nat
  ingress : List Nat
  egress : List Nat
deriving DecidableEq

/-- Free space of the ingress ring, the value of
`get_read_buffer_available`. -/
def readAvail (h : Handler) : Nat := h.ingressCapacity - h.ingress.length

/-- Observable actions of one call: syscalls on descriptors, ring
operations, the buffer-error channel and the `_MSG_ERROR` message bus. -/
inductive Event where
  | getsockoptCall (fd : Int)
  | closeFd (fd : Int)
  | recvCall (fd : Int) (len : Nat)
  | sendCall (fd : Int) (len : Nat)
  | peekWrite (len : Nat)
  | peekFree
  | consume (n : Nat)
  | commit (n : Nat)
  | bufferError (msg : String)
  | msgError
  | triggerReadCb
  | fcntlCall (fd : Int)
  | connectCall (fd : Int)
deriving DecidableEq

/-- True exactly on `bufferError` events (pushes to the error channel). -/
def Event.isBufferError : Event → Bool
  | .bufferError _ => true
  | _ => false

/-- Number of pushes to the buffer-error channel in a trace. -/
def countBufferError : List Event → Nat
  | [] => 0
  | e :: rest => (if e.isBufferError then 1 else 0) + countBufferError rest

theorem countBufferError_append (l1 l2 : List Event) :
    countBufferError (l1 ++ l2) = countBufferError l1 + countBufferError l2 := by
  induction l1 with
  | nil => simp [countBufferError]
  | cons e rest ih => simp [countBufferError, ih]; omega

/-- True exactly on `sendCall` events. -/
def Event.isSendCall : Event → Bool
  | .sendCall _ _ => true
  | _ => false

/-- Number of send syscalls in a trace. -/
def countSendCall : List Event → Nat
  | [] => 0
  | e :: rest => (if e.isSendCall then 1 else 0) + countSendCall rest

/-- True exactly on `recvCall` events. -/
def Event.isRecvCall : Event → Bool
  | .recvCall _ _ => true
  | _ => false

/-- Number of recv syscalls in a trace. -/
def countRecvCall : List Event → Nat
  | [] => 0
  | e :: rest => (if e.isRecvCall then 1 else 0) + countRecvCall rest

/-- `tcp_client_v2::disconnect`: close the descriptor when a connection
is pending or established and the descriptor is valid, then reset the
descriptor and both flags unconditionally. -/
def disconnect (st : ClientState) : ClientState × List Event :=
  let evs : List Event :=
    if (st.pending_connect || st.connected) && decide (0 ≤ st.cli_fd)
    then [Event.closeFd st.cli_fd] else []
  (⟨st.host, st.port, -1, false, false⟩, evs)

/-- Outcome of `gethostbyname` in `connect`. -/
inductive ResolveOutcome where
  | fail
  | ok
deriving DecidableEq

/-- Outcome of the `socket` syscall in `connect`: a fresh descriptor or
a negative return (the source stores the return value in `cli_fd` before
testing it). -/
inductive SocketOutcome where
  | fail
  | ok (fd : Int)
deriving DecidableEq

/-- Outcome of the nonblocking `::connect` syscall. -/
inductive ConnOutcome where
  | inProgress
  | err (e : Int)
  | ok
deriving DecidableEq

/-- Environment of one `connect` call: the three syscall outcomes in
source order. -/
structure ConnectEnv where
  resolve : ResolveOutcome
  sock : SocketOutcome
  conn : ConnOutcome
deriving DecidableEq

/-- Result of one `connect` call. -/
structure ConnectRes where
  st : ClientState
  events : List Event
  ret : Int
deriving DecidableEq

/-- `tcp_client_v2::connect`.  Mirrors the source: reject only when
`connected` is already set; resolve; store host and port; create the
socket storing its return value in `cli_fd`; set nonblocking flags;
issue the connect syscall and dispatch on its outcome.  The synchronous
failure branch pushes `buffer_error(msg.str())` where `msg` is a never
written stringstream, hence the empty string. -/
def connect (st : ClientState) (in_host : String) (in_port : Nat)
    (env : ConnectEnv) : ConnectRes :=
  if st.connected then ⟨st, [.msgError], -1⟩
  else
    match env.resolve with
    | .fail => ⟨st, [.msgError], -1⟩
    | .ok =>
      let st1 : ClientState :=
        ⟨in_host, in_port, st.cli_fd, st.pending_connect, st.connected⟩
      match env.sock with
      | .fail => ⟨⟨in_host, in_port, -1, st.pending_connect, st.connected⟩,
                  [.msgError], -1⟩
      | .ok fd =>
        match env.conn with
        | .inProgress =>
          ⟨⟨in_host, in_port, fd, true, st1.connected⟩,
           [.fcntlCall fd, .connectCall fd], 0⟩
        | .err _ =>
          ⟨⟨in_host, in_port, -1, false, false⟩,
           [.fcntlCall fd, .connectCall fd, .msgError] ++
             (if 0 ≤ fd then [Event.closeFd fd] else []) ++
             [.bufferError ""], -1⟩
        | .ok =>
          ⟨⟨in_host, in_port, fd, false, true⟩,
           [.fcntlCall fd, .connectCall fd], 0⟩

/-- Result of `pollable_merge_set`. -/
structure MergeRes where
  max_fd : Int
  rset : List Int
  wset : List Int
deriving DecidableEq

/-- `tcp_client_v2::pollable_merge_set`: register write interest while a
connect is pending; otherwise, when connected, register write interest
exactly when the egress ring is nonempty and always register read
interest; return the larger of the input max descriptor and our
descriptor, the input unchanged when inactive.  The source only reads
client state here, so the embedding returns no client state. -/
def pollable_merge_set (st : ClientState) (h : Handler) (in_max_fd : Int)
    (rset wset : List Int) : MergeRes :=
  if st.pending_connect then
    let w := st.cli_fd :: wset
    if in_max_fd < st.cli_fd then ⟨st.cli_fd, rset, w⟩ else ⟨in_max_fd, rset, w⟩
  else if !st.connected then ⟨in_max_fd, rset, wset⟩
  else
    let w := if h.egress.length ≠ 0 then st.cli_fd :: wset else wset
    let r := st.cli_fd :: rset
    if in_max_fd < st.cli_fd then ⟨st.cli_fd, r, w⟩ else ⟨in_max_fd, r, w⟩

/-- Outcome of one `recv` syscall in the ingress loop: bytes received
(`ret = bs.length`), remote close (`ret = 0`), a retryable negative
return (EINTR, EAGAIN, EWOULDBLOCK) or a hard error with its errno. -/
inductive RecvResult where
  | bytes (bs : List Nat)
  | closed
  | wouldBlock
  | hardError (e : Int)
deriving DecidableEq

/-- Environment of one iteration of the ingress loop: the length the
ring reservation yields, the recv outcome, and whether
`commit_read_buffer_data` accepts the data. -/
structure IngressStep where
  reserveLen : Nat
  recv : RecvResult
  commitOk : Bool
deriving DecidableEq

/-- OS and ring contract for one loop iteration: a positive recv return
delivers at least one byte and at most the reserved length. -/
def StepOk : IngressStep → Prop
  | ⟨len, .bytes bs, _⟩ => bs ≠ [] ∧ bs.length ≤ len
  | ⟨_, .closed, _⟩ => True
  | ⟨_, .wouldBlock, _⟩ => True
  | ⟨_, .hardError _, _⟩ => True

instance : DecidablePred StepOk := fun s =>
  match s with
  | ⟨len, .bytes bs, _⟩ =>
    inferInstanceAs (Decidable (bs ≠ [] ∧ bs.length ≤ len))
  | ⟨_, .closed, _⟩ => inferInstanceAs (Decidable True)
  | ⟨_, .wouldBlock, _⟩ => inferInstanceAs (Decidable True)
  | ⟨_, .hardError _, _⟩ => inferInstanceAs (Decidable True)

/-- Result of the ingress read loop.  `pairs` records, per iteration,
the reserved length and the length passed to the commit; `rets` records
the recv return values; `returned` is true when the loop path executed
`return 0` from the whole call (skipping the egress phase); `steps`
counts iterations entered. -/
structure ReadRes where
  st : ClientState
  h : Handler
  events : List Event
  pairs : List (Nat × Nat)
  rets : List Int
  returned : Bool
  steps : Nat
deriving DecidableEq

/-- Message of the mid-stream read failure path. -/
def readErrMsg (host : String) (port : Nat) (e : Int) : String :=
  "TCP client error reading from " ++ host ++ ":" ++ toString port ++
    " errno " ++ toString e

/-- Message of the remote-close-on-read path. -/
def remoteClosedReadMsg (host : String) (port : Nat) : String :=
  "TCP client closing connection to " ++ host ++ ":" ++ toString port ++
    ", connection closed by remote"

/-- Message of the mid-stream write failure path. -/
def writeErrMsg (host : String) (port : Nat) (e : Int) : String :=
  "TCP client error writing to " ++ host ++ ":" ++ toString port ++
    " errno " ++ toString e

/-- Message of the remote-close-on-write path. -/
def remoteClosedWriteMsg (host : String) (port : Nat) : String :=
  "TCP client connection to " ++ host ++ ":" ++ toString port ++
    " closed by remote"

/-- Message of the asynchronous connect-completion failure path. -/
def connFailMsg (host : String) (port : Nat) (e : Int) : String :=
  "Could not connect to TCP server " ++ host ++ ":" ++ toString port ++
    " errno " ++ toString e

/-- The `while (connected && get_read_buffer_available() > 0)` ingress
loop of `pollable_poll`: reserve up to the free ingress space, abort on
a zero length reservation (commit zero and break), recv, and dispatch
on the outcome exactly as the source does.  One environment step is
consumed per iteration; an exhausted environment behaves like a
would-block break. -/
def readLoop : ClientState → Handler → List IngressStep → ReadRes
  | st, h, [] => ⟨st, h, [], [], [], false, 0⟩
  | st, h, step :: rest =>
    if st.connected = true ∧ 0 < readAvail h then
      if step.reserveLen = 0 then
        ⟨st, h, [.commit 0], [(0, 0)], [], false, 1⟩
      else
        match step.recv with
        | .wouldBlock =>
          ⟨st, h, [.recvCall st.cli_fd step.reserveLen, .commit 0],
           [(step.reserveLen, 0)], [-1], false, 1⟩
        | .hardError e =>
          let d := disconnect st
          ⟨d.1, h,
           [.recvCall st.cli_fd step.reserveLen, .commit 0,
            .bufferError (readErrMsg st.host st.port e)] ++ d.2,
           [(step.reserveLen, 0)], [-1], true, 1⟩
        | .closed =>
          let d := disconnect st
          ⟨d.1, h,
           [.recvCall st.cli_fd step.reserveLen, .commit 0,
            .bufferError (remoteClosedReadMsg st.host st.port)] ++ d.2,
           [(step.reserveLen, 0)], [0], true, 1⟩
        | .bytes bs =>
          if step.commitOk then
            let h2 : Handler := ⟨h.ingressCapacity, h.ingress ++ bs, h.egress⟩
            let r := readLoop st h2 rest
            ⟨r.st, r.h,
             [.recvCall st.cli_fd step.reserveLen, .commit bs.length] ++ r.events,
             (step.reserveLen, bs.length) :: r.pairs,
             ((bs.length : Int)) :: r.rets, r.returned, r.steps + 1⟩
          else
            let d := disconnect st
            ⟨d.1, h,
             [.recvCall st.cli_fd step.reserveLen, .commit bs.length] ++ d.2,
             [(step.reserveLen, bs.length)], [((bs.length : Int))], true, 1⟩
    else ⟨st, h, [], [], [], false, 0⟩

/-- The read-ready block of `pollable_poll`: when the ingress ring is
full, fire the pending-data callback before entering the loop. -/
def readPhase (st : ClientState) (h : Handler) (steps : List IngressStep) :
    ReadRes :=
  let r := readLoop st h steps
  if readAvail h = 0 then { r with events := Event.triggerReadCb :: r.events }
  else r

/-- Outcome of the one `send` syscall of the egress phase. -/
inductive SendOutcome where
  | sent (n : Nat)
  | closed
  | wouldBlock
  | hardError (e : Int)
deriving DecidableEq

/-- Result of the egress phase; `wire` is the byte sequence actually
transmitted by the send. -/
structure WriteRes where
  st : ClientState
  h : Handler
  events : List Event
  wire : List Nat
deriving DecidableEq

/-- The write-ready block of `pollable_poll`: when connected, write
ready and the egress ring nonempty, peek the entire pending region,
issue one nonblocking send and dispatch on its outcome exactly as the
source does. -/
def writePhase (st : ClientState) (h : Handler) (inW : Bool)
    (out : SendOutcome) : WriteRes :=
  if st.connected = true ∧ inW = true ∧ h.egress.length ≠ 0 then
    let len := h.egress.length
    match out with
    | .wouldBlock =>
      ⟨st, h, [.peekWrite len, .sendCall st.cli_fd len, .peekFree], []⟩
    | .hardError e =>
      let d := disconnect st
      ⟨d.1, h,
       [.peekWrite len, .sendCall st.cli_fd len, .peekFree,
        .bufferError (writeErrMsg st.host st.port e)] ++ d.2, []⟩
    | .closed =>
      let d := disconnect st
      ⟨d.1, h,
       [.peekWrite len, .sendCall st.cli_fd len, .peekFree,
        .bufferError (remoteClosedWriteMsg st.host st.port)] ++ d.2, []⟩
    | .sent n =>
      ⟨st, ⟨h.ingressCapacity, h.ingress, h.egress.drop n⟩,
       [.peekWrite len, .sendCall st.cli_fd len, .peekFree, .consume n],
       h.egress.take n⟩
  else ⟨st, h, [], []⟩

/-- Outcome of the `getsockopt(SO_ERROR)` query while Connecting: a
negative return, or success delivering the socket error value. -/
inductive SockoptOutcome where
  | fail
  | ok (e : Int)
deriving DecidableEq

/-- Environment of one `pollable_poll` call. -/
structure PollEnv where
  sockopt : SockoptOutcome
  ingress : List IngressStep
  send : SendOutcome
deriving DecidableEq

/-- Result of one `pollable_poll` call; `ret` is its return value. -/
structure PollRes where
  st : ClientState
  h : Handler
  events : List Event
  pairs : List (Nat × Nat)
  rets : List Int
  wire : List Nat
  ret : Int
deriving DecidableEq

/-- The connect-completion failure path of `pollable_poll`: report the
failure on the error channel, close a valid descriptor, reset to
Closed. -/
def connFail (st : ClientState) (h : Handler) (e : Int) : PollRes :=
  ⟨⟨st.host, st.port, -1, false, false⟩, h,
   [.getsockoptCall st.cli_fd, .bufferError (connFailMsg st.host st.port e)] ++
     (if 0 ≤ st.cli_fd then [Event.closeFd st.cli_fd] else []),
   [], [], [], 0⟩

/-- `tcp_client_v2::pollable_poll`.  While Connecting and write ready,
query the socket error status once and either become Connected or run
the failure path; in either case return without touching the socket
further.  Otherwise, when connected, run the read-ready block and, if
it did not return early, the write-ready block.  Always returns 0. -/
def pollable_poll (st : ClientState) (h : Handler) (inR inW : Bool)
    (env : PollEnv) : PollRes :=
  if st.pending_connect then
    if inW then
      match env.sockopt with
      | .ok e =>
        if e = 0 then
          ⟨⟨st.host, st.port, st.cli_fd, false, true⟩, h,
           [.getsockoptCall st.cli_fd], [], [], [], 0⟩
        else connFail st h e
      | .fail => connFail st h 0
    else ⟨st, h, [], [], [], [], 0⟩
  else if st.connected then
    let r := if inR then readPhase st h env.ingress
             else ⟨st, h, [], [], [], false, 0⟩
    if r.returned then ⟨r.st, r.h, r.events, r.pairs, r.rets, [], 0⟩
    else
      let w := writePhase r.st r.h inW env.send
      ⟨w.st, w.h, r.events ++ w.events, r.pairs, r.rets, w.wire, 0⟩
  else ⟨st, h, [], [], [], [], 0⟩

/-- Sum of the positive entries of a list of syscall return values. -/
def posSum : List Int → Nat
  | [] => 0
  | r :: rest => r.toNat + posSum rest

@[simp] theorem posSum_nil : posSum [] = 0 := rfl

@[simp] theorem posSum_cons (r : Int) (l : List Int) :
    posSum (r :: l) = r.toNat + posSum l := rfl

/-! ## Helper lemmas -/

theorem countBufferError_disconnect (st : ClientState) :
    countBufferError (disconnect st).2 = 0 := by
  simp only [disconnect]
  split <;> rfl

@[simp] theorem readPhase_st (st : ClientState) (h : Handler)
    (steps : List IngressStep) :
    (readPhase st h steps).st = (readLoop st h steps).st := by
  simp only [readPhase]
  split <;> rfl

@[simp] theorem readPhase_h (st : ClientState) (h : Handler)
    (steps : List IngressStep) :
    (readPhase st h steps).h = (readLoop st h steps).h := by
  simp only [readPhase]
  split <;> rfl

@[simp] theorem readPhase_pairs (st : ClientState) (h : Handler)
    (steps : List IngressStep) :
    (readPhase st h steps).pairs = (readLoop st h steps).pairs := by
  simp only [readPhase]
  split <;> rfl

@[simp] theorem readPhase_rets (st : ClientState) (h : Handler)
    (steps : List IngressStep) :
    (readPhase st h steps).rets = (readLoop st h steps).rets := by
  simp only [readPhase]
  split <;> rfl

@[simp] theorem readPhase_returned (st : ClientState) (h : Handler)
    (steps : List IngressStep) :
    (readPhase st h steps).returned = (readLoop st h steps).returned := by
  simp only [readPhase]
  split <;> rfl

theorem writePhase_ingress (st : ClientState) (h : Handler) (inW : Bool)
    (out : SendOutcome) :
    (writePhase st h inW out).h.ingress = h.ingress := by
  simp only [writePhase]
  split
  · cases out <;> rfl
  · rfl

/-- Core accounting of the ingress loop: when the ring accepts every
commit and recv obeys its contract, the ring grows by exactly the sum of
the positive recv returns, and every commit length is bounded by the
reserved length of its own iteration. -/
theorem readLoop_commits (env : List IngressStep) :
    ∀ (st : ClientState) (h : Handler),
    (∀ s ∈ env, StepOk s ∧ s.commitOk = true) →
    (readLoop st h env).h.ingress.length
      = h.ingress.length + posSum (readLoop st h env).rets
    ∧ (∀ p ∈ (readLoop st h env).pairs, p.2 ≤ p.1) := by
  induction env with
  | nil =>
    intro st h _
    simp [readLoop]
  | cons step rest ih =>
    intro st h hok
    obtain ⟨len, recv, cok⟩ := step
    have hhead := hok _ (List.mem_cons_self _ _)
    have hrest : ∀ s ∈ rest, StepOk s ∧ s.commitOk = true :=
      fun s hs => hok s (List.mem_cons_of_mem _ hs)
    by_cases hg : st.connected = true ∧ 0 < readAvail h
    · by_cases hz : len = 0
      · subst hz
        simp [readLoop, hg]
      · cases recv with
        | wouldBlock => simp [readLoop, hg, hz]
        | hardError e => simp [readLoop, hg, hz]
        | closed => simp [readLoop, hg, hz]
        | bytes bs =>
          have hcok : cok = true := hhead.2
          subst hcok
          have hbs : bs ≠ [] ∧ bs.length ≤ len := hhead.1
          have ihx := ih st ⟨h.ingressCapacity, h.ingress ++ bs, h.egress⟩ hrest
          have ih1 := ihx.1
          simp only [List.length_append] at ih1
          refine ⟨?_, ?_⟩
          · simp [readLoop, hg, hz]
            omega
          · simp only [readLoop]
            rw [if_pos hg, if_neg hz]
            intro p hp
            rcases List.mem_cons.mp hp with hp | hp
            · subst hp; exact hbs.2
            · exact ihx.2 p hp
    · simp [readLoop, hg]

/-- Termination bound of the ingress loop: under the recv contract each
continuing iteration commits at least one byte, so the loop enters at
most `readAvail h` iterations. -/
theorem readLoop_steps_le (env : List IngressStep) :
    ∀ (st : ClientState) (h : Handler),
    (∀ s ∈ env, StepOk s) →
    (readLoop st h env).steps ≤ readAvail h := by
  induction env with
  | nil =>
    intro st h _
    simp [readLoop]
  | cons step rest ih =>
    intro st h hok
    obtain ⟨len, recv, cok⟩ := step
    have hhead := hok _ (List.mem_cons_self _ _)
    have hrest : ∀ s ∈ rest, StepOk s :=
      fun s hs => hok s (List.mem_cons_of_mem _ hs)
    by_cases hg : st.connected = true ∧ 0 < readAvail h
    · by_cases hz : len = 0
      · subst hz
        simp [readLoop, hg]
        omega
      · cases recv with
        | wouldBlock => simp [readLoop, hg, hz]; omega
        | hardError e => simp [readLoop, hg, hz]; omega
        | closed => simp [readLoop, hg, hz]; omega
        | bytes bs =>
          cases cok with
          | false => simp [readLoop, hg, hz]; omega
          | true =>
            have hbs : bs ≠ [] ∧ bs.length ≤ len := hhead
            have hlen1 : 1 ≤ bs.length := by
              cases bs with
              | nil => exact absurd rfl hbs.1
              | cons a t => simp
            have ihx := ih st ⟨h.ingressCapacity, h.ingress ++ bs, h.egress⟩ hrest
            simp only [readAvail, List.length_append] at ihx
            have hg2 := hg.2
            simp only [readAvail] at hg2
            simp [readLoop, hg, hz]
            simp only [readAvail]
            omega
    · simp [readLoop, hg]

theorem ite_max (a b : Int) : (if a < b then b else a) = max a b := by
  rcases lt_or_ge a b with hab | hab
  · rw [if_pos hab, max_eq_right hab.le]
  · rw [if_neg (not_lt.mpr hab), max_eq_left hab]

theorem merge_set_pending (st : ClientState) (h : Handler) (mfd : Int)
    (rs ws : List Int) (hp : st.pending_connect = true) :
    pollable_merge_set st h mfd rs ws = ⟨max mfd st.cli_fd, rs, st.cli_fd :: ws⟩ := by
  rw [show max mfd st.cli_fd = if mfd < st.cli_fd then st.cli_fd else mfd from
    (ite_max mfd st.cli_fd).symm]
  simp only [pollable_merge_set, hp, if_true]
  split <;> simp_all

theorem merge_set_inactive (st : ClientState) (h : Handler) (mfd : Int)
    (rs ws : List Int) (hp : st.pending_connect = false)
    (hc : st.connected = false) :
    pollable_merge_set st h mfd rs ws = ⟨mfd, rs, ws⟩ := by
  simp [pollable_merge_set, hp, hc]

theorem merge_set_connected (st : ClientState) (h : Handler) (mfd : Int)
    (rs ws : List Int) (hp : st.pending_connect = false)
    (hc : st.connected = true) :
    pollable_merge_set st h mfd rs ws =
      ⟨max mfd st.cli_fd, st.cli_fd :: rs,
       if h.egress.length ≠ 0 then st.cli_fd :: ws else ws⟩ := by
  rw [show max mfd st.cli_fd = if mfd < st.cli_fd then st.cli_fd else mfd from
    (ite_max mfd st.cli_fd).symm]
  by_cases hm : mfd < st.cli_fd <;> simp [pollable_merge_set, hp, hc, hm]

/-! ## Claims -/

/-- C1, counterexample: the source guards `connect` only with
`if (connected)`, so a client in the Connecting state
(`pending_connect = true`) accepts a second `connect` call, which
returns success and overwrites host, port and the descriptor, refuting
the claim that the call fails and leaves them unchanged. -/
theorem claim_C1_counterexample :
    (connect ⟨"old.example", 4352, 5, true, false⟩ "new.example" 9
      ⟨.ok, .ok 7, .ok⟩).ret = 0
    ∧ (connect ⟨"old.example", 4352, 5, true, false⟩ "new.example" 9
        ⟨.ok, .ok 7, .ok⟩).st = ⟨"new.example", 9, 7, false, true⟩ :=
  ⟨rfl, rfl⟩

/-- C1, amended: calling `connect` while Connected fails with -1 and
leaves the descriptor, host, port and connection state untouched,
reporting only on the message bus; while Connecting (pending_connect)
the call is not rejected and proceeds to overwrite the endpoint. -/
theorem claim_C1_amended (st : ClientState) (host : String) (port : Nat)
    (env : ConnectEnv) (hc : st.connected = true) :
    connect st host port env = ⟨st, [.msgError], -1⟩ := by
  simp [connect, hc]

theorem claim_C1_witness :
    (⟨"gps.example", 4352, 6, false, true⟩ : ClientState).connected = true
    ∧ connect ⟨"gps.example", 4352, 6, false, true⟩ "other.example" 1
        ⟨.ok, .ok 7, .ok⟩
      = ⟨⟨"gps.example", 4352, 6, false, true⟩, [.msgError], -1⟩ :=
  ⟨rfl, claim_C1_amended ⟨"gps.example", 4352, 6, false, true⟩ "other.example" 1
    ⟨.ok, .ok 7, .ok⟩ rfl⟩

/-- C7, counterexample: when `socket()` fails inside `connect`, host
and port have already been overwritten with the new values (the source
stores them before creating the socket), so the call does not leave all
client state exactly as it was. -/
theorem claim_C7_counterexample :
    (connect ⟨"old.example", 1, -1, false, false⟩ "new.example" 2
      ⟨.ok, .fail, .ok⟩).ret = -1
    ∧ (connect ⟨"old.example", 1, -1, false, false⟩ "new.example" 2
        ⟨.ok, .fail, .ok⟩).st.host = "new.example"
    ∧ "new.example" ≠ "old.example" :=
  ⟨rfl, rfl, by decide⟩

/-- C7, amended: a resolution failure returns -1 and leaves all client
state exactly as before with no operation on any descriptor; a
socket-creation failure returns -1 and performs no operation on any
existing descriptor, but it runs after host and port were already
overwritten and it stores the failed socket return (-1) in the
descriptor field, while the connection flags stay unchanged. -/
theorem claim_C7_amended (host0 : String) (port0 : Nat) (fd0 : Int)
    (pnd : Bool) (host : String) (port : Nat) (senv : SocketOutcome)
    (cenv cenv2 : ConnOutcome) :
    connect ⟨host0, port0, fd0, pnd, false⟩ host port ⟨.fail, senv, cenv⟩
      = ⟨⟨host0, port0, fd0, pnd, false⟩, [.msgError], -1⟩
    ∧ connect ⟨host0, port0, fd0, pnd, false⟩ host port ⟨.ok, .fail, cenv2⟩
      = ⟨⟨host, port, -1, pnd, false⟩, [.msgError], -1⟩ := by
  constructor <;> simp [connect]

/-- C9: `disconnect` always lands in the Closed state with an invalid
descriptor, is idempotent (a second call changes nothing and emits no
events), and a call made from the Closed state performs no close
syscall. -/
theorem claim_C9 (st : ClientState) :
    (disconnect st).1.cli_fd = -1
    ∧ (disconnect st).1.pending_connect = false
    ∧ (disconnect st).1.connected = false
    ∧ disconnect (disconnect st).1 = ((disconnect st).1, [])
    ∧ (st.pending_connect = false → st.connected = false →
        (disconnect st).2 = []) := by
  refine ⟨rfl, rfl, rfl, rfl, ?_⟩
  intro h1 h2
  simp [disconnect, h1, h2]

theorem claim_C9_witness :
    (⟨"gps.example", 4352, 3, false, false⟩ : ClientState).pending_connect = false
    ∧ (disconnect ⟨"gps.example", 4352, 3, false, false⟩).2 = [] :=
  ⟨rfl, (claim_C9 ⟨"gps.example", 4352, 3, false, false⟩).2.2.2.2 rfl rfl⟩

/-- C3: starting from empty interest sets and a client satisfying the
state invariant (never Connecting and Connected at once),
`pollable_merge_set` registers write interest iff Connecting or
Connected with nonempty egress, read interest iff Connected, returns
the maximum of the input descriptor bound and the client descriptor
when any interest is registered and the input unchanged when inactive;
the embedding is a pure function of the state, mirroring that the
source only reads client state here. -/
theorem claim_C3 (st : ClientState) (h : Handler) (mfd : Int)
    (hinv : ¬(st.pending_connect = true ∧ st.connected = true)) :
    (st.cli_fd ∈ (pollable_merge_set st h mfd [] []).wset
      ↔ (st.pending_connect = true
          ∨ (st.connected = true ∧ h.egress.length ≠ 0)))
    ∧ (st.cli_fd ∈ (pollable_merge_set st h mfd [] []).rset
      ↔ st.connected = true)
    ∧ ((st.pending_connect = true ∨ st.connected = true) →
        (pollable_merge_set st h mfd [] []).max_fd = max mfd st.cli_fd)
    ∧ (st.pending_connect = false → st.connected = false →
        pollable_merge_set st h mfd [] [] = ⟨mfd, [], []⟩) := by
  cases hp : st.pending_connect with
  | true =>
    cases hc : st.connected with
    | true => exact absurd ⟨hp, hc⟩ hinv
    | false =>
      rw [merge_set_pending st h mfd [] [] hp]
      simp [hp, hc]
  | false =>
    cases hc : st.connected with
    | true =>
      rw [merge_set_connected st h mfd [] [] hp hc]
      by_cases he : h.egress.length ≠ 0 <;> simp [hp, hc, he]
    | false =>
      rw [merge_set_inactive st h mfd [] [] hp hc]
      simp [hp, hc]

theorem claim_C3_witness :
    ¬((⟨"gps.example", 4352, 6, false, true⟩ : ClientState).pending_connect = true
        ∧ (⟨"gps.example", 4352, 6, false, true⟩ : ClientState).connected = true)
    ∧ ((6 : Int) ∈ (pollable_merge_set ⟨"gps.example", 4352, 6, false, true⟩
          ⟨4, [], []⟩ 2 [] []).wset
        ↔ ((⟨"gps.example", 4352, 6, false, true⟩ : ClientState).pending_connect = true
            ∨ ((⟨"gps.example", 4352, 6, false, true⟩ : ClientState).connected = true
                ∧ ([] : List Nat).length ≠ 0)))
    ∧ ((6 : Int) ∈ (pollable_merge_set ⟨"gps.example", 4352, 6, false, true⟩
          ⟨4, [], []⟩ 2 [] []).rset
        ↔ (⟨"gps.example", 4352, 6, false, true⟩ : ClientState).connected = true) :=
  have hw := claim_C3 ⟨"gps.example", 4352, 6, false, true⟩ ⟨4, [], []⟩ 2
    (by decide)
  ⟨by decide, hw.1, hw.2.1⟩

/-- C2: within one service call on a Connected, read-ready client, for
any mix of recv outcomes obeying the recv contract and with the ring
accepting every commit, the ingress ring grows by exactly the sum of
the positive recv return values, and every commit length is at most the
length of the reservation obtained in the same iteration. -/
theorem claim_C2 (host : String) (port : Nat) (fd : Int) (h : Handler)
    (inW : Bool) (env : PollEnv)
    (hok : ∀ s ∈ env.ingress, StepOk s ∧ s.commitOk = true) :
    (pollable_poll ⟨host, port, fd, false, true⟩ h true inW env).h.ingress.length
      = h.ingress.length
        + posSum (pollable_poll ⟨host, port, fd, false, true⟩ h true inW env).rets
    ∧ ∀ p ∈ (pollable_poll ⟨host, port, fd, false, true⟩ h true inW env).pairs,
        p.2 ≤ p.1 := by
  have hr := readLoop_commits env.ingress ⟨host, port, fd, false, true⟩ h hok
  by_cases hret :
      (readLoop ⟨host, port, fd, false, true⟩ h env.ingress).returned = true
  · refine ⟨?_, ?_⟩
    · simpa [pollable_poll, hret] using hr.1
    · simpa [pollable_poll, hret] using hr.2
  · refine ⟨?_, ?_⟩
    · simpa [pollable_poll, hret, writePhase_ingress] using hr.1
    · simpa [pollable_poll, hret] using hr.2

theorem claim_C2_witness :
    (pollable_poll ⟨"gps.example", 4352, 3, false, true⟩ ⟨4, [], []⟩ true false
      ⟨.fail, [⟨4, .bytes [7, 7], true⟩, ⟨2, .wouldBlock, true⟩],
       .wouldBlock⟩).h.ingress.length
    = ([] : List Nat).length
      + posSum (pollable_poll ⟨"gps.example", 4352, 3, false, true⟩ ⟨4, [], []⟩
          true false
          ⟨.fail, [⟨4, .bytes [7, 7], true⟩, ⟨2, .wouldBlock, true⟩],
           .wouldBlock⟩).rets :=
  (claim_C2 "gps.example" 4352 3 ⟨4, [], []⟩ false
    ⟨.fail, [⟨4, .bytes [7, 7], true⟩, ⟨2, .wouldBlock, true⟩], .wouldBlock⟩
    (by decide)).1

/-- C4: while Connecting and write-ready, the service call issues the
socket-error query exactly once and touches the socket with nothing
else (the event trace holds a single getsockopt and no recv or send):
a zero error flips the state to Connected; a nonzero error or a failed
query pushes the connect-failure message on the error channel, closes
the descriptor and resets to Closed; every branch returns 0. -/
theorem claim_C4 (host : String) (port : Nat) (fd : Int) (h : Handler)
    (inR : Bool) (hfd : 0 ≤ fd) :
    (∀ ing se,
      pollable_poll ⟨host, port, fd, true, false⟩ h inR true ⟨.ok 0, ing, se⟩
        = ⟨⟨host, port, fd, false, true⟩, h, [.getsockoptCall fd],
           [], [], [], 0⟩)
    ∧ (∀ (e : Int) ing se, e ≠ 0 →
        pollable_poll ⟨host, port, fd, true, false⟩ h inR true ⟨.ok e, ing, se⟩
          = ⟨⟨host, port, -1, false, false⟩, h,
             [.getsockoptCall fd, .bufferError (connFailMsg host port e),
              .closeFd fd], [], [], [], 0⟩)
    ∧ (∀ ing se,
        pollable_poll ⟨host, port, fd, true, false⟩ h inR true ⟨.fail, ing, se⟩
          = ⟨⟨host, port, -1, false, false⟩, h,
             [.getsockoptCall fd, .bufferError (connFailMsg host port 0),
              .closeFd fd], [], [], [], 0⟩) := by
  refine ⟨?_, ?_, ?_⟩
  · intro ing se
    simp [pollable_poll]
  · intro e ing se he
    simp [pollable_poll, connFail, he, hfd]
  · intro ing se
    simp [pollable_poll, connFail, hfd]

theorem claim_C4_witness :
    (0 : Int) ≤ 3
    ∧ pollable_poll ⟨"gps.example", 4352, 3, true, false⟩ ⟨8, [], []⟩ false true
        ⟨.ok 0, [], .wouldBlock⟩
      = ⟨⟨"gps.example", 4352, 3, false, true⟩, ⟨8, [], []⟩,
         [.getsockoptCall 3], [], [], [], 0⟩
    ∧ pollable_poll ⟨"gps.example", 4352, 3, true, false⟩ ⟨8, [], []⟩ false true
        ⟨.ok 111, [], .wouldBlock⟩
      = ⟨⟨"gps.example", 4352, -1, false, false⟩, ⟨8, [], []⟩,
         [.getsockoptCall 3,
          .bufferError (connFailMsg "gps.example" 4352 111), .closeFd 3],
         [], [], [], 0⟩ := by
  have hc := claim_C4 "gps.example" 4352 3 ⟨8, [], []⟩ false (by decide)
  exact ⟨by decide, hc.1 [] .wouldBlock, hc.2.1 111 [] .wouldBlock (by decide)⟩

/-- C8: the ingress loop terminates within one service call: under the
recv contract it enters at most `readAvail h` iterations (each
continuing iteration commits at least one byte of the free space), and
a zero-length reservation commits zero bytes and breaks immediately,
leaving state, ring and the rest of the environment untouched. -/
theorem claim_C8 (env : List IngressStep) (st : ClientState) (h : Handler)
    (r : RecvResult) (ok : Bool) (rest : List IngressStep)
    (hok : ∀ s ∈ env, StepOk s)
    (hc : st.connected = true) (ha : 0 < readAvail h) :
    (readLoop st h env).steps ≤ readAvail h
    ∧ readLoop st h (⟨0, r, ok⟩ :: rest)
        = ⟨st, h, [.commit 0], [(0, 0)], [], false, 1⟩ := by
  refine ⟨readLoop_steps_le env st h hok, ?_⟩
  simp [readLoop, hc, ha]

theorem claim_C8_witness :
    (readLoop ⟨"gps.example", 4352, 3, false, true⟩ ⟨2, [], []⟩
      [⟨2, .bytes [7], true⟩]).steps ≤ readAvail ⟨2, [], []⟩
    ∧ readLoop ⟨"gps.example", 4352, 3, false, true⟩ ⟨2, [], []⟩
        [⟨0, .wouldBlock, true⟩]
      = ⟨⟨"gps.example", 4352, 3, false, true⟩, ⟨2, [], []⟩,
         [.commit 0], [(0, 0)], [], false, 1⟩ :=
  claim_C8 [⟨2, .bytes [7], true⟩] ⟨"gps.example", 4352, 3, false, true⟩
    ⟨2, [], []⟩ .wouldBlock true [] (by decide) rfl (by decide)

/-- C10: when the ring refuses a commit after a successful recv, the
client disconnects at once and the call returns: the result shows one
recv, the refused commit, the close of the descriptor, no push on the
error channel, no further recv (the remaining environment is not
consumed) and no egress send in the same call. -/
theorem claim_C10 (host : String) (port : Nat) (fd : Int) (h : Handler)
    (rest : List IngressStep) (len : Nat) (bs : List Nat) (inW : Bool)
    (so : SockoptOutcome) (se : SendOutcome)
    (hfd : 0 ≤ fd) (ha : 0 < readAvail h) (hlen : len ≠ 0) (hbs : bs ≠ []) :
    pollable_poll ⟨host, port, fd, false, true⟩ h true inW
        ⟨so, ⟨len, .bytes bs, false⟩ :: rest, se⟩
      = ⟨⟨host, port, -1, false, false⟩, h,
         [.recvCall fd len, .commit bs.length, .closeFd fd],
         [(len, bs.length)], [(bs.length : Int)], [], 0⟩ := by
  have hnz : ¬ readAvail h = 0 := by omega
  simp [pollable_poll, readPhase, readLoop, disconnect, hfd, ha, hlen, hnz]

theorem claim_C10_witness :
    pollable_poll ⟨"gps.example", 4352, 3, false, true⟩ ⟨4, [], [9]⟩ true true
        ⟨.fail, [⟨4, .bytes [5], false⟩, ⟨3, .wouldBlock, true⟩], .sent 1⟩
      = ⟨⟨"gps.example", 4352, -1, false, false⟩, ⟨4, [], [9]⟩,
         [.recvCall 3 4, .commit 1, .closeFd 3],
         [(4, 1)], [1], [], 0⟩ :=
  claim_C10 "gps.example" 4352 3 ⟨4, [], [9]⟩ [⟨3, .wouldBlock, true⟩] 4 [5]
    true .fail (.sent 1) (by decide) (by decide) (by decide) (by decide)

/-- C5: a write-ready service call on a Connected client with pending
egress issues exactly one send of the entire peeked region (the trace
holds one peek and one send, both of the full pending length); a short
send of N of M bytes advances the egress ring to exactly the dropped
suffix of M-N bytes, and a subsequent full send transmits exactly that
suffix, so the two transmitted slices concatenate to the original
egress content with no duplication and no loss. -/
theorem claim_C5 (host : String) (port : Nat) (fd : Int) (cap : Nat)
    (ing eg : List Nat) (N : Nat) (so so2 : SockoptOutcome)
    (ings ings2 : List IngressStep)
    (hN0 : 0 < N) (hNM : N < eg.length) :
    pollable_poll ⟨host, port, fd, false, true⟩ ⟨cap, ing, eg⟩ false true
        ⟨so, ings, .sent N⟩
      = ⟨⟨host, port, fd, false, true⟩, ⟨cap, ing, eg.drop N⟩,
         [.peekWrite eg.length, .sendCall fd eg.length, .peekFree, .consume N],
         [], [], eg.take N, 0⟩
    ∧ (eg.drop N).length = eg.length - N
    ∧ pollable_poll ⟨host, port, fd, false, true⟩ ⟨cap, ing, eg.drop N⟩ false
        true ⟨so2, ings2, .sent (eg.length - N)⟩
      = ⟨⟨host, port, fd, false, true⟩, ⟨cap, ing, []⟩,
         [.peekWrite (eg.length - N), .sendCall fd (eg.length - N), .peekFree,
          .consume (eg.length - N)],
         [], [], eg.drop N, 0⟩
    ∧ eg.take N ++ eg.drop N = eg := by
  have hne : eg.length ≠ 0 := by omega
  have hld : (eg.drop N).length = eg.length - N := by
    simp
  have hne2 : (eg.drop N).length ≠ 0 := by
    rw [hld]; omega
  have hdd : (eg.drop N).drop (eg.length - N) = [] := by
    apply List.drop_eq_nil_of_le
    rw [hld]
  have htt : (eg.drop N).take (eg.length - N) = eg.drop N := by
    apply List.take_of_length_le
    rw [hld]
  have hsub : ¬(eg.length - N = 0) := by omega
  refine ⟨?_, hld, ?_, List.take_append_drop N eg⟩
  · simp [pollable_poll, writePhase, hne]
  · simp [pollable_poll, writePhase, hsub, hld, hdd, htt]

theorem claim_C5_witness :
    pollable_poll ⟨"gps.example", 4352, 6, false, true⟩ ⟨4, [], [1, 2, 3]⟩
        false true ⟨.fail, [], .sent 2⟩
      = ⟨⟨"gps.example", 4352, 6, false, true⟩, ⟨4, [], [3]⟩,
         [.peekWrite 3, .sendCall 6 3, .peekFree, .consume 2],
         [], [], [1, 2], 0⟩
    ∧ pollable_poll ⟨"gps.example", 4352, 6, false, true⟩ ⟨4, [], [3]⟩
        false true ⟨.fail, [], .sent 1⟩
      = ⟨⟨"gps.example", 4352, 6, false, true⟩, ⟨4, [], []⟩,
         [.peekWrite 1, .sendCall 6 1, .peekFree, .consume 1],
         [], [], [3], 0⟩ := by
  have hc := claim_C5 "gps.example" 4352 6 4 [] [1, 2, 3] 2 .fail .fail [] []
    (by decide) (by decide)
  exact ⟨hc.1, hc.2.2.1⟩

/-- C6, counterexample: a resolution failure is one of the errors of
the taxonomy, yet `connect` pushes nothing on the buffer-error channel
for it and reports it synchronously with a -1 return, refuting the
claim that every taxonomy error is reported through the channel. -/
theorem claim_C6_counterexample :
    countBufferError (connect ⟨"", 0, -1, false, false⟩ "bad.example" 4352
      ⟨.fail, .fail, .ok⟩).events = 0
    ∧ (connect ⟨"", 0, -1, false, false⟩ "bad.example" 4352
        ⟨.fail, .fail, .ok⟩).ret = -1 :=
  ⟨rfl, rfl⟩

theorem countBufferError_closeOpt (c : Prop) [Decidable c] (f : Int) :
    countBufferError (if c then [Event.closeFd f] else []) = 0 := by
  split <;> rfl

theorem pollable_poll_ret (st : ClientState) (h : Handler) (inR inW : Bool)
    (env : PollEnv) : (pollable_poll st h inR inW env).ret = 0 := by
  rcases env with ⟨so, ing, se⟩
  by_cases hp : st.pending_connect = true
  · rcases so with _ | e
    · by_cases hw : inW = true <;> simp [pollable_poll, hp, hw, connFail]
    · by_cases hw : inW = true
      · by_cases he : e = 0 <;> simp [pollable_poll, hp, hw, he, connFail]
      · simp [pollable_poll, hp, hw]
  · by_cases hc : st.connected = true
    · cases inR with
      | false => simp [pollable_poll, hp, hc]
      | true =>
        by_cases hr : (readLoop st h ing).returned = true <;>
          simp [pollable_poll, hp, hc, hr]
    · simp [pollable_poll, hp, hc]

/-- C6, amended: the polling call never returns a synchronous error
(always 0).  ConnectFailure (asynchronous completion failure and the
synchronous refused-connect branch of `connect`), ReadFailure,
RemoteClosed on read, WriteFailure and RemoteClosed on write each push
exactly one message on the buffer-error channel.  ResolutionFailure and
SocketCreateFailure, by contrast, are reported only on the message bus
together with a synchronous -1 return from `connect`, never through the
buffer-error channel. -/
theorem claim_C6_amended :
    (∀ st h inR inW env, (pollable_poll st h inR inW env).ret = 0)
    ∧ (∀ (host0 : String) (port0 : Nat) (fd0 : Int) (pnd : Bool) host port
          senv cenv,
        countBufferError (connect ⟨host0, port0, fd0, pnd, false⟩ host port
          ⟨.fail, senv, cenv⟩).events = 0
        ∧ (connect ⟨host0, port0, fd0, pnd, false⟩ host port
            ⟨.fail, senv, cenv⟩).ret = -1)
    ∧ (∀ (host0 : String) (port0 : Nat) (fd0 : Int) (pnd : Bool) host port
          cenv,
        countBufferError (connect ⟨host0, port0, fd0, pnd, false⟩ host port
          ⟨.ok, .fail, cenv⟩).events = 0
        ∧ (connect ⟨host0, port0, fd0, pnd, false⟩ host port
            ⟨.ok, .fail, cenv⟩).ret = -1)
    ∧ (∀ (host0 : String) (port0 : Nat) (fd0 : Int) (pnd : Bool) host port fd
          (e : Int),
        countBufferError (connect ⟨host0, port0, fd0, pnd, false⟩ host port
          ⟨.ok, .ok fd, .err e⟩).events = 1)
    ∧ (∀ (host : String) (port : Nat) (fd : Int) (h : Handler) ing se
          (e : Int), e ≠ 0 →
        countBufferError (pollable_poll ⟨host, port, fd, true, false⟩ h false
          true ⟨.ok e, ing, se⟩).events = 1)
    ∧ (∀ (host : String) (port : Nat) (fd : Int) (h : Handler) ing se,
        countBufferError (pollable_poll ⟨host, port, fd, true, false⟩ h false
          true ⟨.fail, ing, se⟩).events = 1)
    ∧ (∀ (host : String) (port : Nat) (fd : Int) (h : Handler) rest
          (len : Nat) (e : Int) inW so se, len ≠ 0 → 0 < readAvail h →
        countBufferError (pollable_poll ⟨host, port, fd, false, true⟩ h true
          inW ⟨so, ⟨len, .hardError e, true⟩ :: rest, se⟩).events = 1)
    ∧ (∀ (host : String) (port : Nat) (fd : Int) (h : Handler) rest
          (len : Nat) inW so se, len ≠ 0 → 0 < readAvail h →
        countBufferError (pollable_poll ⟨host, port, fd, false, true⟩ h true
          inW ⟨so, ⟨len, .closed, true⟩ :: rest, se⟩).events = 1)
    ∧ (∀ (host : String) (port : Nat) (fd : Int) (h : Handler) so ing
          (e : Int), h.egress.length ≠ 0 →
        countBufferError (pollable_poll ⟨host, port, fd, false, true⟩ h false
          true ⟨so, ing, .hardError e⟩).events = 1)
    ∧ (∀ (host : String) (port : Nat) (fd : Int) (h : Handler) so ing,
        h.egress.length ≠ 0 →
        countBufferError (pollable_poll ⟨host, port, fd, false, true⟩ h false
          true ⟨so, ing, .closed⟩).events = 1) := by
  refine ⟨pollable_poll_ret, ?_, ?_, ?_, ?_, ?_, ?_, ?_, ?_, ?_⟩
  · intro host0 port0 fd0 pnd host port senv cenv
    exact ⟨by simp [connect, countBufferError, Event.isBufferError],
      by simp [connect]⟩
  · intro host0 port0 fd0 pnd host port cenv
    exact ⟨by simp [connect, countBufferError, Event.isBufferError],
      by simp [connect]⟩
  · intro host0 port0 fd0 pnd host port fd e
    simp [connect, countBufferError_append, countBufferError,
      Event.isBufferError, countBufferError_closeOpt]
  · intro host port fd h ing se e he
    simp [pollable_poll, connFail, he, countBufferError_append,
      countBufferError, Event.isBufferError, countBufferError_closeOpt]
  · intro host port fd h ing se
    simp [pollable_poll, connFail, countBufferError_append,
      countBufferError, Event.isBufferError, countBufferError_closeOpt]
  · intro host port fd h rest len e inW so se hlen ha
    have hnz : ¬ readAvail h = 0 := by omega
    simp [pollable_poll, readPhase, readLoop, disconnect, ha, hlen, hnz,
      countBufferError_append, countBufferError, Event.isBufferError,
      countBufferError_closeOpt]
  · intro host port fd h rest len inW so se hlen ha
    have hnz : ¬ readAvail h = 0 := by omega
    simp [pollable_poll, readPhase, readLoop, disconnect, ha, hlen, hnz,
      countBufferError_append, countBufferError, Event.isBufferError,
      countBufferError_closeOpt]
  · intro host port fd h so ing e hne
    simp [pollable_poll, writePhase, disconnect, hne,
      countBufferError_append, countBufferError, Event.isBufferError,
      countBufferError_closeOpt]
  · intro host port fd h so ing hne
    simp [pollable_poll, writePhase, disconnect, hne,
      countBufferError_append, countBufferError, Event.isBufferError,
      countBufferError_closeOpt]

theorem claim_C6_witness :
    countBufferError (pollable_poll ⟨"gps.example", 4352, 3, true, false⟩
      ⟨4, [], []⟩ false true ⟨.ok 111, [], .wouldBlock⟩).events = 1
    ∧ countBufferError (pollable_poll ⟨"gps.example", 4352, 3, false, true⟩
        ⟨4, [], []⟩ true false
        ⟨.fail, [⟨4, .hardError 104, true⟩], .wouldBlock⟩).events = 1
    ∧ countBufferError (pollable_poll ⟨"gps.example", 4352, 3, false, true⟩
        ⟨4, [], []⟩ true false
        ⟨.fail, [⟨4, .closed, true⟩], .wouldBlock⟩).events = 1
    ∧ countBufferError (pollable_poll ⟨"gps.example", 4352, 3, false, true⟩
        ⟨4, [], [9]⟩ false true ⟨.fail, [], .hardError 32⟩).events = 1
    ∧ countBufferError (pollable_poll ⟨"gps.example", 4352, 3, false, true⟩
        ⟨4, [], [9]⟩ false true ⟨.fail, [], .closed⟩).events = 1 := by
  have hc := claim_C6_amended
  exact ⟨hc.2.2.2.2.1 "gps.example" 4352 3 ⟨4, [], []⟩ [] .wouldBlock 111
      (by decide),
    hc.2.2.2.2.2.2.1 "gps.example" 4352 3 ⟨4, [], []⟩ [] 4 104 false .fail
      .wouldBlock (by decide) (by decide),
    hc.2.2.2.2.2.2.2.1 "gps.example" 4352 3 ⟨4, [], []⟩ [] 4 false .fail
      .wouldBlock (by decide) (by decide),
    hc.2.2.2.2.2.2.2.2.1 "gps.example" 4352 3 ⟨4, [], [9]⟩ .fail [] 32
      (by decide),
    hc.2.2.2.2.2.2.2.2.2 "gps.example" 4352 3 ⟨4, [], [9]⟩ .fail []
      (by decide)⟩

end TcpClientV2
